import Mathlib

/-!
Verification of the electron-flow animation engine
(`portal-firmware/current_animation.py`) against its specification.

Modelling conventions
---------------------
- Python floats are modelled as exact rationals (`ℚ`).  Where a claim is
  sensitive to IEEE-754 binary64 rounding, a second model (`fl`, and the
  `set_current_fp` refinement) performs round-to-nearest, ties-to-even at
  53 bits of precision, so that exact-equality claims can be settled
  against the arithmetic the hardware actually performs.
- Python `//` on ints is floor division (`Int.fdiv`); Python `%` with a
  positive modulus is `Int.emod`; Python `int()` on a float truncates
  toward zero (`pyInt`).
- `random.randint(a, b)` is modelled by an explicit stream of naturals
  (`RNG`): each call consumes one stream element and maps it into `[a,b]`.
  All randomized behaviour is therefore quantified over every stream.
- `time.monotonic()` is modelled as an explicit `now : ℚ` input.
- The frame buffer (`matrix_display.bitmap`) is a total function
  `ℤ → ℤ → ℤ` from coordinates to palette indices; `display.refresh()`
  is modelled by returning the number of refresh calls an invocation makes.
- The precomputed sine table (built from `math.sin`, a transcendental the
  claims never depend on numerically) is abstracted as a function
  `st : ℕ → ℤ` supplied as a parameter to the definitions that read it.
-/

namespace CurrentAnim

/-- Display width in pixels (`WIDTH = 64`). -/
def WIDTH : ℤ := 64

/-- Display height in pixels (`HEIGHT = 32`). -/
def HEIGHT : ℤ := 32

/-- Resistor body left column, inclusive (`RES_X1 = 20`). -/
def RES_X1 : ℤ := 20

/-- Resistor body right column, inclusive (`RES_X2 = 43`). -/
def RES_X2 : ℤ := 43

/-- Resistor body top row (`RES_Y1 = 4`). -/
def RES_Y1 : ℤ := 4

/-- Resistor body bottom row (`RES_Y2 = 27`). -/
def RES_Y2 : ℤ := 27

/-- Wire top row (`WIRE_Y1 = 13`). -/
def WIRE_Y1 : ℤ := 13

/-- Wire bottom row (`WIRE_Y2 = 18`). -/
def WIRE_Y2 : ℤ := 18

/-- Electron pool size (`NUM_ELECTRONS = 20`). -/
def NUM_ELECTRONS : ℕ := 20

/-- Heat-particle pool capacity (`MAX_HEAT_PARTICLES = 12`). -/
def MAX_HEAT_PARTICLES : ℕ := 12

/-- Electron trail length (`TRAIL_LENGTH = 2`). -/
def TRAIL_LENGTH : ℤ := 2

/-- Nominal supply voltage used by `set_current` (`_V_IN = 3.3`). -/
def V_IN : ℚ := 33/10

/-- Size of the precomputed sine table (`_SIN_SIZE = 629`). -/
def SIN_SIZE : ℤ := 629

/-- Python `int()` applied to a float: truncation toward zero. -/
def pyInt (q : ℚ) : ℤ := Int.tdiv q.num q.den

/-- `_fast_sin(phase_100) = sin_table[phase_100 % 629] - 100`, with the
table contents abstracted as `st`. -/
def fast_sin (st : ℕ → ℤ) (phase_100 : ℤ) : ℤ :=
  st (phase_100 % SIN_SIZE).toNat - 100

/-! ### IEEE binary64 rounding model

Used only for claims whose truth depends on double-precision rounding
(the exact-equality claim about `set_current(0.033)`).  `fl q` is the
binary64 value nearest `q` (ties to even), for arguments in the normal
range — overflow and subnormals are outside the range of every value
this development evaluates `fl` on. -/

/-- Halvings of `r` until it drops below `2`; for `r ≥ 1` this is
the floor of the base-2 logarithm of `r` (fuel-bounded recursion). -/
def floorLog2Steps : ℕ → ℚ → ℕ
  | 0, _ => 0
  | f+1, r => if r < 2 then 0 else 1 + floorLog2Steps f (r/2)

/-- Doublings of `r` until it reaches `1`; for `0 < r < 1` this is the
negated floor of the base-2 logarithm of `r` (fuel-bounded recursion). -/
def negExpSteps : ℕ → ℚ → ℕ
  | 0, _ => 0
  | f+1, r => if 1 ≤ r then 0 else 1 + negExpSteps f (r*2)

/-- Floor of the base-2 logarithm of a positive rational. -/
def floorLog2 (q : ℚ) : ℤ :=
  if 1 ≤ q then (floorLog2Steps q.num.natAbs q : ℤ)
  else -(negExpSteps q.den q : ℤ)

/-- Round a rational to the nearest integer, ties to even. -/
def roundHalfEven (x : ℚ) : ℤ :=
  let f := ⌊x⌋
  let r := x - (f : ℚ)
  if r < 1/2 then f
  else if 1/2 < r then f + 1
  else if f % 2 = 0 then f else f + 1

/-- Binary64 rounding of a positive rational in the normal range:
scale into `[2^52, 2^53)`, round the 53-bit significand, scale back. -/
def flPos (q : ℚ) : ℚ :=
  (roundHalfEven (q * 2 ^ (-(floorLog2 q - 52))) : ℚ) * 2 ^ (floorLog2 q - 52)

/-- Binary64 rounding (round-to-nearest, ties-to-even) of a rational in
the normal range. -/
def fl (q : ℚ) : ℚ :=
  if q = 0 then 0
  else if q < 0 then -flPos (-q) else flPos q

/-! ### Random source

`random.randint(a, b)` returns a uniform integer in `[a, b]`; the model
draws the next element of an arbitrary stream and maps it into `[a, b]`,
so every theorem quantifying over `RNG` covers every possible sequence
of draws. -/

/-- A deterministic stream of naturals together with a read position,
standing in for the `random` module's hidden state. -/
structure RNG where
  stream : ℕ → ℕ
  pos : ℕ

/-- `random.randint(a, b)`: next value mapped into `[a, b]` (for `a ≤ b`),
advancing the stream. -/
def randint (g : RNG) (a b : ℤ) : ℤ × RNG :=
  (a + (g.stream g.pos : ℤ) % (b - a + 1), ⟨g.stream, g.pos + 1⟩)

/-! ### Frame buffer -/

/-- The indexed-colour frame buffer `matrix_display.bitmap`, as a total
map from `(x, y)` to palette index.  Out-of-range coordinates are carried
along but never written through the checked helpers. -/
def Buffer : Type := ℤ → ℤ → ℤ

/-- Raw `bitmap[x, y] = c` write (no bounds check — used by the source
only at coordinates that are in range by construction). -/
def bset (b : Buffer) (x y c : ℤ) : Buffer :=
  fun x' y' => if x' = x ∧ y' = y then c else b x' y'

/-- `_sp(x, y, c)`: set pixel with bounds check. -/
def sp (b : Buffer) (x y c : ℤ) : Buffer :=
  if 0 ≤ x ∧ x < WIDTH ∧ 0 ≤ y ∧ y < HEIGHT then bset b x y c else b

/-- `_spb(x, y, c)`: set pixel only if the new colour index is higher
(brighter) than the current one, with bounds check. -/
def spb (b : Buffer) (x y c : ℤ) : Buffer :=
  if (0 ≤ x ∧ x < WIDTH ∧ 0 ≤ y ∧ y < HEIGHT) ∧ c > b x y then bset b x y c else b

/-- The all-black buffer produced by `bitmap.fill(0)`. -/
def bfill0 : Buffer := fun _ _ => 0

/-- Python `range(a, b)` as a list of integers `a, a+1, …, b-1`. -/
def intRange (a b : ℤ) : List ℤ :=
  (List.range (b - a).toNat).map (fun n => a + (n : ℤ))

/-! ### Animation state -/

/-- One electron: position, baseline, phase and heat, all in the source's
fixed-point convention (pixel × 100 for positions). -/
structure Electron where
  ex : ℤ
  ey : ℤ
  ebase_y : ℤ
  ephase : ℤ
  eheat : ℤ
deriving DecidableEq

/-- One heat-particle slot: position, velocity and remaining life
(`0` = dead, `1..100` = alive). -/
structure HeatParticle where
  hpx : ℤ
  hpy : ℤ
  hpvx : ℤ
  hpvy : ℤ
  hplife : ℤ
deriving DecidableEq

/-- The whole `CurrentAnimation` instance state (underscore prefixes of
the Python attribute names dropped). -/
structure AnimState where
  voltage : ℚ
  resistance : ℚ
  active : Bool
  electrons : List Electron
  particles : List HeatParticle
  tick : ℤ
  heat_spawn_ctr : ℤ
  idle_x : ℤ
  idle_last : ℚ

/-- The `__init__` loop body for electron `i`: append an electron at
`i * spacing` with a random baseline and phase and zero heat. -/
def init_electron_build (spacing : ℤ) (acc : List Electron × RNG)
    (i : ℤ) : List Electron × RNG :=
  let r1 := randint acc.2 0 ((WIRE_Y2 - WIRE_Y1 + 1) * 100)
  let base := WIRE_Y1 * 100 + r1.1
  let pr := randint r1.2 0 628
  (acc.1 ++ [{ ex := i * spacing, ey := base, ebase_y := base,
               ephase := pr.1, eheat := 0 }], pr.2)

/-- `__init__`: pre-allocate all animation state.  Electron `i` starts at
`i * spacing` with a random baseline and phase and zero heat; all twelve
heat-particle slots start dead; counters and idle state start at zero. -/
def initState (g : RNG) : AnimState × RNG :=
  let spacing := Int.fdiv (WIDTH * 100) (NUM_ELECTRONS : ℤ)
  let r := (intRange 0 (NUM_ELECTRONS : ℤ)).foldl
    (init_electron_build spacing) ([], g)
  ({ voltage := 33/10
     resistance := 330
     active := false
     electrons := r.1
     particles := List.replicate MAX_HEAT_PARTICLES
       { hpx := 0, hpy := 0, hpvx := 0, hpvy := 0, hplife := 0 }
     tick := 0
     heat_spawn_ctr := 0
     idle_x := 0
     idle_last := 0 }, r.2)

/-! ### Parameter ingestion -/

/-- `set_params(voltage, resistance)`: clamp voltage to `[0, 15]` and
resistance to `[0.1, ∞)`, store both, and set `active = voltage > 0`. -/
def set_params (s : AnimState) (voltage resistance : ℚ) : AnimState :=
  let voltage := if voltage < 0 then 0 else if voltage > 15 then 15 else voltage
  let resistance := if resistance < 1/10 then 1/10 else resistance
  { s with voltage := voltage, resistance := resistance,
           active := decide (voltage > 0) }

/-- `set_current(amps)`: clamp negatives to `0`; below `0.00001` store the
nominal voltage, the `330000.0` resistance sentinel and `active = False`;
otherwise clamp to `0.5`, derive `resistance = 3.3 / amps` and activate.
Exact-rational arithmetic model. -/
def set_current (s : AnimState) (amps : ℚ) : AnimState :=
  let amps := if amps < 0 then 0 else amps
  if amps < 1/100000 then
    { s with voltage := V_IN, resistance := 330000, active := false }
  else
    let amps := if amps > 1/2 then 1/2 else amps
    { s with voltage := V_IN, resistance := V_IN / amps, active := true }

/-- `set_current(amps)` under IEEE binary64 arithmetic: every float
literal is the binary64 value of its decimal source text, and the derived
resistance is the correctly rounded quotient.  Comparisons and the other
assignments involve no rounding and are identical to `set_current`. -/
def set_current_fp (s : AnimState) (amps : ℚ) : AnimState :=
  let amps := if amps < 0 then 0 else amps
  if amps < fl (1/100000) then
    { s with voltage := fl (33/10), resistance := 330000, active := false }
  else
    let amps := if amps > 1/2 then 1/2 else amps
    { s with voltage := fl (33/10), resistance := fl (fl (33/10) / amps),
             active := true }

/-! ### Helper lemmas: evaluating the binary64 model on the literals of
`set_current`.  The four values match the IEEE binary64 constants
(`3.3`, `0.033`, `0.00001`, and `3.3 / 0.033` as computed by the
hardware). -/

theorem floorLog2Steps_eval :
    ∀ (k f : ℕ) (r : ℚ), k ≤ f → r < 2 ^ (k+1) → 2 ^ k ≤ r →
      floorLog2Steps f r = k := by
  intro k
  induction k with
  | zero =>
    intro f r _ h2 _
    match f with
    | 0 => rfl
    | f'+1 =>
      rw [floorLog2Steps]
      rw [if_pos (by simpa using h2)]
  | succ k ih =>
    intro f r hf h2 h1
    match f with
    | 0 => omega
    | f'+1 =>
      rw [floorLog2Steps]
      have hge : (2:ℚ) ≤ r :=
        le_trans (le_self_pow₀ one_le_two (Nat.succ_ne_zero k)) h1
      rw [if_neg (not_lt.mpr hge)]
      have ha : r / 2 < 2 ^ (k+1) := by
        rw [div_lt_iff₀ (by norm_num : (0:ℚ) < 2)]
        calc r < 2 ^ (k+1+1) := h2
          _ = 2 ^ (k+1) * 2 := by ring
      have hb : (2:ℚ) ^ k ≤ r / 2 := by
        rw [le_div_iff₀ (by norm_num : (0:ℚ) < 2)]
        calc (2:ℚ) ^ k * 2 = 2 ^ (k+1) := by ring
          _ ≤ r := h1
      rw [ih f' (r/2) (by omega) ha hb]
      omega

theorem negExpSteps_eval :
    ∀ (k f : ℕ) (r : ℚ), k ≤ f → 1 ≤ r * 2 ^ k → (∀ j < k, r * 2 ^ j < 1) →
      negExpSteps f r = k := by
  intro k
  induction k with
  | zero =>
    intro f r _ h1 _
    match f with
    | 0 => rfl
    | f'+1 =>
      rw [negExpSteps]
      rw [if_pos (by simpa using h1)]
  | succ k ih =>
    intro f r hf h1 h3
    match f with
    | 0 => omega
    | f'+1 =>
      rw [negExpSteps]
      have hlt : r < 1 := by simpa using h3 0 (Nat.succ_pos k)
      rw [if_neg (not_le.mpr hlt)]
      have ha : 1 ≤ r * 2 * 2 ^ k := by
        calc (1:ℚ) ≤ r * 2 ^ (k+1) := h1
          _ = r * 2 * 2 ^ k := by ring
      have hb : ∀ j < k, r * 2 * 2 ^ j < 1 := by
        intro j hj
        calc r * 2 * 2 ^ j = r * 2 ^ (j+1) := by ring
          _ < 1 := h3 (j+1) (by omega)
      rw [ih f' (r*2) (by omega) ha hb]
      omega

theorem floorLog2_eval_pos (q : ℚ) (k : ℕ) (h1 : 1 ≤ q) (hf : k ≤ q.num.natAbs)
    (h2 : 2 ^ k ≤ q) (h3 : q < 2 ^ (k+1)) : floorLog2 q = k := by
  rw [floorLog2, if_pos h1, floorLog2Steps_eval k q.num.natAbs q hf h3 h2]

theorem floorLog2_eval_neg (q : ℚ) (k : ℕ) (h1 : ¬ 1 ≤ q) (hf : k ≤ q.den)
    (h2 : 1 ≤ q * 2 ^ k) (h3 : ∀ j < k, q * 2 ^ j < 1) : floorLog2 q = -k := by
  rw [floorLog2, if_neg h1, negExpSteps_eval k q.den q hf h2 h3]

theorem flPos_eval (q : ℚ) (k : ℤ) (hk : floorLog2 q = k) :
    flPos q = (roundHalfEven (q * 2 ^ (52 - k)) : ℚ) * 2 ^ (k - 52) := by
  rw [flPos, hk]
  have h : -(k - 52) = 52 - k := by ring
  rw [h]

theorem fl_3_3 : fl (33/10) = 3715469692580659/1125899906842624 := by
  have hk : floorLog2 (33/10) = 1 := by
    have h := floorLog2_eval_pos (33/10) 1 (by norm_num) (by norm_num)
      (by norm_num) (by norm_num)
    simpa using h
  have h0 : fl (33/10) = flPos (33/10) := by rw [fl]; norm_num
  rw [h0, flPos_eval (33/10) 1 hk]
  norm_num [roundHalfEven, Int.fract, Rat.floor_def]

theorem fl_0_033 : fl (33/1000) = 1188950301625811/36028797018963968 := by
  have hk : floorLog2 (33/1000) = -5 := by
    have h := floorLog2_eval_neg (33/1000) 5 (by norm_num) (by norm_num)
      (by norm_num) (by intro j hj; interval_cases j <;> norm_num)
    simpa using h
  have h0 : fl (33/1000) = flPos (33/1000) := by rw [fl]; norm_num
  rw [h0, flPos_eval (33/1000) (-5) hk]
  norm_num [roundHalfEven, Int.fract, Rat.floor_def]

theorem fl_eps : fl (1/100000) = 5902958103587057/590295810358705651712 := by
  have hk : floorLog2 (1/100000) = -17 := by
    have h := floorLog2_eval_neg (1/100000) 17 (by norm_num) (by norm_num)
      (by norm_num) (by intro j hj; interval_cases j <;> norm_num)
    simpa using h
  have h0 : fl (1/100000) = flPos (1/100000) := by rw [fl]; norm_num
  rw [h0, flPos_eval (1/100000) (-17) hk]
  norm_num [roundHalfEven, Int.fract, Rat.floor_def]

theorem fl_quot :
    fl ((3715469692580659/1125899906842624 : ℚ) /
        (1188950301625811/36028797018963968)) =
      7036874417766399/70368744177664 := by
  have harg : ((3715469692580659/1125899906842624 : ℚ) /
      (1188950301625811/36028797018963968)) =
      118895030162581088/1188950301625811 := by norm_num
  rw [harg]
  have hk : floorLog2 (118895030162581088/1188950301625811) = 6 := by
    have h := floorLog2_eval_pos (118895030162581088/1188950301625811) 6
      (by norm_num) (by norm_num) (by norm_num) (by norm_num)
    simpa using h
  have h0 : fl (118895030162581088/1188950301625811) =
      flPos (118895030162581088/1188950301625811) := by rw [fl]; norm_num
  rw [h0, flPos_eval (118895030162581088/1188950301625811) 6 hk]
  norm_num [roundHalfEven, Int.fract, Rat.floor_def]


/-! ### Frame rendering -/

/-- `_draw_static(tick, current, heat_intensity)`: wires, resistor body
with deterministic per-pixel flicker, rounded caps, leads and polarity
markers.  A pure function of `tick`, `heat_intensity` and the incoming
buffer; the `current` argument is accepted, as in the source, but never
read. -/
def draw_static (tick : ℤ) (current heat_intensity : ℚ) (b : Buffer) :
    Buffer :=
  let b := (intRange 0 WIDTH).foldl (fun b x =>
    if x < RES_X1 ∨ x > RES_X2 then
      (intRange WIRE_Y1 (WIRE_Y2 + 1)).foldl (fun b y => bset b x y 36) b
    else b) b
  let b := (intRange RES_X1 (RES_X2 + 1)).foldl (fun b x =>
    (intRange RES_Y1 (RES_Y2 + 1)).foldl (fun b y =>
      if x = RES_X1 ∨ x = RES_X2 ∨ y = RES_Y1 ∨ y = RES_Y2 then
        bset b x y 23
      else if heat_intensity > 1/10 then
        let flicker_up := (tick + x * 3 + y * 7) % 11 > 5
        let h0 := pyInt (heat_intensity * 100)
        let h100 := if flicker_up then min 100 (h0 + 15) else max 0 (h0 - 15)
        let idx : ℤ :=
          if h100 < 20 then 21 else if h100 < 40 then 22
          else if h100 < 60 then 26 else if h100 < 75 then 27
          else if h100 < 88 then 28 else 29
        bset b x y idx
      else bset b x y 21) b) b
  let b := (intRange (RES_Y1 + 1) RES_Y2).foldl (fun b y =>
    sp (sp b (RES_X1 - 1) y 24) (RES_X2 + 1) y 24) b
  let b := (intRange WIRE_Y1 (WIRE_Y2 + 1)).foldl (fun b y =>
    sp (sp (sp (sp b (RES_X1 - 1) y 25) (RES_X1 - 2) y 25)
      (RES_X2 + 1) y 25) (RES_X2 + 2) y 25) b
  let b := sp (sp (sp (sp (sp b 1 15 37) 2 15 37) 3 15 37) 2 14 37) 2 16 37
  sp (sp (sp b 60 15 37) 61 15 37) 62 15 37

/-! ### Electron pool -/

/-- `_reset_electron(i, spread)`: respawn an electron with a random `x`
(off-screen start, or spread across the screen), a fresh random baseline
and phase, and zero heat. -/
def reset_electron (spread : Bool) (g : RNG) : Electron × RNG :=
  let xr := if spread then randint g (-1000) ((WIDTH + 10) * 100)
            else randint g (-2400) 0
  let br := randint xr.2 0 ((WIRE_Y2 - WIRE_Y1 + 1) * 100)
  let base := WIRE_Y1 * 100 + br.1
  let pr := randint br.2 0 628
  ({ ex := xr.1, ey := base, ebase_y := base, ephase := pr.1, eheat := 0 },
    pr.2)

/-- Whether an electron's pixel `x` lies inside the resistor span
(`RES_X1 <= ex // 100 <= RES_X2`). -/
def electron_in_res (e : Electron) : Bool :=
  decide (RES_X1 ≤ Int.fdiv e.ex 100 ∧ Int.fdiv e.ex 100 ≤ RES_X2)

/-- The per-tick heat update in `_update_electrons`: `+8` capped at
`100` while inside the resistor span, `-6` floored at `0` outside,
exactly as the source writes it with conditionals. -/
def electron_heat_step (in_res : Bool) (h : ℤ) : ℤ :=
  if in_res then (if h + 8 < 100 then h + 8 else 100)
  else (if h - 6 > 0 then h - 6 else 0)

/-- The x position after one move: speed depends on the span via the
`2.5 + current*1.2` / `6.0 + current*4.0` formulas (scaled by 100,
truncated), and the electron advances by `speed // 3`. -/
def electron_moved_x (current : ℚ) (e : Electron) : ℤ :=
  let speed := if electron_in_res e then pyInt ((5/2 + current * (12/10)) * 100)
               else pyInt ((6 + current * 4) * 100)
  e.ex + Int.fdiv speed 3

/-- One iteration of the `_update_electrons` loop: update heat by the
fixed increment/decrement (capped at 100, floored at 0) depending on
whether the pixel `x` lies inside the resistor span, move, wobble,
respawn past the right edge, then draw body, core and trail. -/
def update_electron (st : ℕ → ℤ) (current : ℚ) (e : Electron) (g : RNG)
    (b : Buffer) : Electron × RNG × Buffer :=
  let in_res : Bool := electron_in_res e
  let heat1 := electron_heat_step in_res e.eheat
  let ex1 := electron_moved_x current e
  let phase1 := (e.ephase + 16) % SIN_SIZE
  let ey1 :=
    if in_res then
      let center_y := Int.fdiv ((WIRE_Y1 + WIRE_Y2) * 100) 2
      let wobble := Int.fdiv (fast_sin st phase1 * 350) 100
      let new_y := center_y + wobble
      let lo := (RES_Y1 + 1) * 100
      let hi := (RES_Y2 - 1) * 100
      if lo ≤ new_y ∧ new_y ≤ hi then new_y
      else if new_y < lo then lo else hi
    else e.ebase_y + Int.fdiv (fast_sin st phase1 * 70) 100
  let e1 : Electron :=
    { ex := ex1, ey := ey1, ebase_y := e.ebase_y, ephase := phase1,
      eheat := heat1 }
  let er := if ex1 > (WIDTH + 8) * 100 then reset_electron false g
            else (e1, g)
  let e2 := er.1
  let draw_x := Int.fdiv e2.ex 100
  let draw_y := Int.fdiv e2.ey 100
  let heat_t := e2.eheat
  let color : ℤ := if heat_t < 20 then 41 else if heat_t < 40 then 42
    else if heat_t < 60 then 43 else if heat_t < 80 then 44 else 45
  let b := spb b draw_x draw_y color
  let bright_idx := if heat_t > 50 then 11 + min 9 (Int.fdiv heat_t 12)
    else 1 + min 9 (5 + Int.fdiv heat_t 20)
  let b := spb b draw_x draw_y bright_idx
  let trail_c : ℤ := if heat_t < 50 then 38 else 39
  let b := (intRange 1 (TRAIL_LENGTH + 1)).foldl
    (fun b t => spb b (draw_x - t) draw_y trail_c) b
  (e2, er.2, b)

/-- `_update_electrons(current)`: the loop over the whole electron pool,
threading the random stream and the buffer through each slot in order. -/
def update_electrons (st : ℕ → ℤ) (current : ℚ) :
    List Electron → RNG → Buffer → List Electron × RNG × Buffer
  | [], g, b => ([], g, b)
  | e :: es, g, b =>
    let r := update_electron st current e g b
    let rest := update_electrons st current es r.2.1 r.2.2
    (r.1 :: rest.1, rest.2.1, rest.2.2)

/-! ### Heat-particle pool -/

/-- `_spawn_heat_particle()`: scan for the first dead slot
(`life == 0`) and spawn there with randomized position and velocity;
when every slot is alive, do nothing at all (no queueing, no growth,
no randomness consumed). -/
def spawn_heat_particle : List HeatParticle → RNG → List HeatParticle × RNG
  | [], g => ([], g)
  | p :: ps, g =>
    if p.hplife = 0 then
      let xr := randint g 0 (RES_X2 - RES_X1 - 4)
      let sr := randint xr.2 0 1
      let yvy : ℤ × ℤ × RNG :=
        if sr.1 = 0 then
          let vr := randint sr.2 (-300) (-120)
          ((RES_Y1 - 1) * 100, vr.1, vr.2)
        else
          let vr := randint sr.2 120 300
          ((RES_Y2 + 1) * 100, vr.1, vr.2)
      let vxr := randint yvy.2.2 (-150) 150
      ({ hpx := (RES_X1 + 2 + xr.1) * 100, hpy := yvy.1, hpvx := vxr.1,
         hpvy := yvy.2.1, hplife := 100 } :: ps, vxr.2)
    else
      let r := spawn_heat_particle ps g
      (p :: r.1, r.2)

/-- Body of the per-slot advance/draw loop in `_update_heat_particles`:
dead slots are skipped; an alive slot moves by its velocity, loses 3
life, dies at `life ≤ 0`, and otherwise draws one pixel on a 5-level
brightness ramp. -/
def update_heat_particle (p : HeatParticle) (b : Buffer) :
    HeatParticle × Buffer :=
  if p.hplife = 0 then (p, b)
  else
    let x1 := p.hpx + Int.fdiv p.hpvx 3
    let y1 := p.hpy + Int.fdiv p.hpvy 3
    let life := p.hplife - 3
    if life ≤ 0 then ({ p with hpx := x1, hpy := y1, hplife := 0 }, b)
    else
      let px := Int.fdiv x1 100
      let py := Int.fdiv y1 100
      let cidx : ℤ := if life > 80 then 31 else if life > 60 then 32
        else if life > 40 then 33 else if life > 20 then 34 else 35
      ({ p with hpx := x1, hpy := y1, hplife := life }, spb b px py cidx)

/-- The advance/draw loop over every heat-particle slot in order. -/
def update_heat_loop : List HeatParticle → Buffer → List HeatParticle × Buffer
  | [], b => ([], b)
  | p :: ps, b =>
    let r := update_heat_particle p b
    let rest := update_heat_loop ps r.2
    (r.1 :: rest.1, rest.2)

/-- `_update_heat_particles(current, heat_intensity)`: increment the
spawn counter, spawn once the counter reaches the rate derived from the
current, then advance and draw every slot. -/
def update_heat_particles (current heat_intensity : ℚ) (ctr : ℤ)
    (ps : List HeatParticle) (g : RNG) (b : Buffer) :
    ℤ × List HeatParticle × RNG × Buffer :=
  let ctr1 := ctr + 1
  let spawned :=
    if heat_intensity > 15/100 then
      let spawn_rate := max 2 (pyInt (8 / max (3/10) (current * (25/100))))
      if ctr1 ≥ spawn_rate then
        ((0 : ℤ), spawn_heat_particle ps g)
      else (ctr1, (ps, g))
    else (ctr1, (ps, g))
  let r := update_heat_loop spawned.2.1 b
  (spawned.1, r.1, spawned.2.2, r.2)

/-- `_draw_flow_indicators(tick, current)`: periodic dim chevron dots
above and below the wire, skipping the resistor neighbourhood. -/
def draw_flow_indicators (tick : ℤ) (current : ℚ) (b : Buffer) : Buffer :=
  let flow_phase := (tick * pyInt (2 + current * 2)) % 10
  (intRange 0 WIDTH).foldl (fun b x =>
    if RES_X1 - 2 ≤ x ∧ x ≤ RES_X2 + 2 then b
    else if (x + flow_phase) % 10 < 1 then
      spb (spb b x (WIRE_Y1 - 1) 40) x (WIRE_Y2 + 1) 40
    else b) b

/-! ### Public frame operations -/

/-- The current that `update()` computes: `voltage / resistance`. -/
def current_of (s : AnimState) : ℚ := s.voltage / s.resistance

/-- The heat intensity that `update()` computes:
`min(1.0, current * 0.35)`. -/
def heat_intensity_of (s : AnimState) : ℚ := min 1 (current_of s * (35/100))

/-- `update()`: a no-op while inactive; otherwise one complete frame in
strict order — clear, static scene, electrons, heat particles, flow
indicators — followed by exactly one refresh.  The final component is
the number of `display.refresh` calls the invocation performed. -/
def update (st : ℕ → ℤ) (s : AnimState) (g : RNG) (b : Buffer) :
    AnimState × RNG × Buffer × ℕ :=
  if s.active = false then (s, g, b, 0)
  else
    let current := current_of s
    let heat_intensity := heat_intensity_of s
    let tick := s.tick + 1
    let b1 := draw_static tick current heat_intensity bfill0
    let re := update_electrons st current s.electrons g b1
    let rh := update_heat_particles current heat_intensity s.heat_spawn_ctr
      s.particles re.2.1 re.2.2
    let b2 := draw_flow_indicators tick current rh.2.2.2
    ({ s with electrons := re.1, particles := rh.2.1, tick := tick,
              heat_spawn_ctr := rh.1 }, rh.2.2.1, b2, 1)

/-- `idle_animation()`: self-throttled on the wall clock (`now`); when
due, erase the marker, advance it one pixel with wraparound, jump past
the resistor span if it would land inside, draw it, and refresh once.
The final component is the number of `display.refresh` calls. -/
def idle_animation (s : AnimState) (now : ℚ) (b : Buffer) :
    AnimState × Buffer × ℕ :=
  if now - s.idle_last < 8/100 then (s, b, 0)
  else
    let py := Int.fdiv (WIRE_Y1 + WIRE_Y2) 2
    let b1 := sp b s.idle_x py 0
    let x1 := (s.idle_x + 1) % WIDTH
    let x2 := if RES_X1 ≤ x1 ∧ x1 ≤ RES_X2 then RES_X2 + 1 else x1
    let b2 := sp b1 x2 py 36
    ({ s with idle_last := now, idle_x := x2 }, b2, 1)

/-- `stop()`: black out the display, refresh once, clear the active
flag; nothing else in the state is touched. -/
def stop (s : AnimState) (b : Buffer) : AnimState × Buffer × ℕ :=
  ({ s with active := false }, bfill0, 1)


/-! ### Sample states for witnesses and counterexamples -/

/-- A concrete post-construction state: nominal electricals, inactive,
full pre-allocated pools, zeroed counters (the field values
`__init__` establishes, with fixed draws for the randomized fields). -/
def sampleInactive : AnimState :=
  { voltage := 33/10
    resistance := 330
    active := false
    electrons := List.replicate NUM_ELECTRONS
      { ex := 0, ey := 1300, ebase_y := 1300, ephase := 0, eheat := 0 }
    particles := List.replicate MAX_HEAT_PARTICLES
      { hpx := 0, hpy := 0, hpvx := 0, hpvy := 0, hplife := 0 }
    tick := 0
    heat_spawn_ctr := 0
    idle_x := 0
    idle_last := 0 }

/-- `sampleInactive` with the marker parked just left of the resistor. -/
def sampleIdle19 : AnimState :=
  { sampleInactive with idle_x := 19 }

/-- A fixed random stream for concrete instantiations. -/
def g0 : RNG := ⟨fun _ => 0, 0⟩

/-! ### Claims -/

/-- C1 counterexample: `set_current(0.000005)` stores the nominal
voltage `3.3 > 0` yet sets `active = False`, so the invariant
"`active` equals `voltage > 0` after every ingestion call" fails on the
`set_current` epsilon path. -/
theorem set_current_active_voltage_cex :
    (set_current sampleInactive (1/200000)).active = false
    ∧ 0 < (set_current sampleInactive (1/200000)).voltage := by
  constructor
  · rw [set_current]
    norm_num
  · rw [set_current]
    norm_num [V_IN]

/-- C1 (amended): after `set_params`, `active` equals
"stored clamped voltage > 0"; after `set_current`, the stored voltage is
always the nominal `3.3` and `active` instead equals
"amps, clamped at zero, is at least the `0.00001` epsilon". -/
theorem ingestion_active_flag (s : AnimState) (v r a : ℚ) :
    ((set_params s v r).active = true ↔ 0 < (set_params s v r).voltage)
    ∧ (set_current s a).voltage = V_IN
    ∧ ((set_current s a).active = true
        ↔ 1/100000 ≤ (if a < 0 then 0 else a)) := by
  refine ⟨?_, ?_, ?_⟩
  · rw [set_params]
    split_ifs with h1 h2 <;> simp <;> linarith
  · rw [set_current]
    split_ifs <;> rfl
  · rw [set_current]
    split_ifs with h1 <;> simp <;> linarith

/-- C2 counterexample: an `update()` call while inactive performs zero
refreshes, and an `idle_animation()` call before the throttle interval
has elapsed performs zero refreshes — not "exactly once per
invocation". -/
theorem refresh_per_call_cex :
    (update (fun _ => 0) sampleInactive g0 bfill0).2.2.2 ≠ 1
    ∧ (idle_animation sampleInactive 0 bfill0).2.2 ≠ 1 := by
  constructor
  · rw [update]
    norm_num [sampleInactive]
  · rw [idle_animation]
    norm_num [sampleInactive]

/-- C2 (amended): `update()` refreshes exactly once when active and not
at all when inactive; `idle_animation()` refreshes exactly once when the
0.08 s wall-clock throttle has elapsed and not at all otherwise;
`stop()` always refreshes exactly once. -/
theorem refresh_per_call (st : ℕ → ℤ) (s : AnimState) (g : RNG)
    (b : Buffer) (now : ℚ) :
    (update st s g b).2.2.2 = (if s.active then 1 else 0)
    ∧ (idle_animation s now b).2.2
        = (if now - s.idle_last < 8/100 then 0 else 1)
    ∧ (stop s b).2.2 = 1 := by
  refine ⟨?_, ?_, rfl⟩
  · rw [update]
    cases h : s.active <;> simp [h]
  · rw [idle_animation]
    split_ifs <;> rfl

/-- C8: the static-scene renderer is deterministic — its output depends
only on `tick`, `heat_intensity` and the incoming buffer contents (not
even on the `current` argument, which it ignores), with no randomness or
hidden state. -/
theorem draw_static_deterministic (tick : ℤ) (c1 c2 hi : ℚ)
    (b1 b2 : Buffer) (hb : b1 = b2) :
    draw_static tick c1 hi b1 = draw_static tick c2 hi b2 := by
  subst hb
  rfl

/-- C8 witness: two runs from the all-black buffer with the same tick
and heat intensity (and different ignored currents) coincide. -/
theorem draw_static_deterministic_witness :
    draw_static 1 0 (1/2) bfill0 = draw_static 1 1 (1/2) bfill0 :=
  draw_static_deterministic 1 0 1 (1/2) bfill0 bfill0 rfl

/-- C10: `stop()` changes only the active flag (to `False`) and the
frame buffer (blacked out, one refresh); voltage, resistance, tick,
spawn counter, idle state and both particle pools are untouched. -/
theorem stop_frame_effect (s : AnimState) (b : Buffer) :
    (stop s b).1.voltage = s.voltage
    ∧ (stop s b).1.resistance = s.resistance
    ∧ (stop s b).1.electrons = s.electrons
    ∧ (stop s b).1.particles = s.particles
    ∧ (stop s b).1.tick = s.tick
    ∧ (stop s b).1.heat_spawn_ctr = s.heat_spawn_ctr
    ∧ (stop s b).1.idle_x = s.idle_x
    ∧ (stop s b).1.idle_last = s.idle_last
    ∧ (stop s b).1.active = false
    ∧ (stop s b).2.1 = bfill0
    ∧ (stop s b).2.2 = 1 :=
  ⟨rfl, rfl, rfl, rfl, rfl, rfl, rfl, rfl, rfl, rfl, rfl⟩


/-- Evaluation of the binary64 `set_current` at the double nearest
`0.033`: the derived resistance is the correctly rounded quotient
`fl(fl(3.3)/fl(0.033))`, one unit in the last place below `100`. -/
theorem set_current_fp_at_0_033 (s : AnimState) :
    (set_current_fp s (fl (33/1000))).resistance
      = 7036874417766399/70368744177664
    ∧ (set_current_fp s (fl (33/1000))).active = true := by
  have hnn : ¬ (fl (33/1000) < 0) := by rw [fl_0_033]; norm_num
  have hne : ¬ (fl (33/1000) < fl (1/100000)) := by
    rw [fl_0_033, fl_eps]; norm_num
  have hnh : ¬ (fl (33/1000) > 1/2) := by rw [fl_0_033]; norm_num
  constructor
  · simp only [set_current_fp, if_neg hnn, if_neg hne, if_neg hnh]
    rw [fl_3_3, fl_0_033, fl_quot]
  · simp only [set_current_fp, if_neg hnn, if_neg hne, if_neg hnh]

/-- C3 counterexample: under the IEEE binary64 arithmetic the firmware
actually executes, `set_current(0.033)` stores
`99.99999999999999 = 100 - 2^-46`, which is not exactly `100.0`. -/
theorem set_current_0_033_cex :
    (set_current_fp sampleInactive (fl (33/1000))).resistance ≠ 100
    ∧ (set_current_fp sampleInactive (fl (33/1000))).active = true := by
  have h := set_current_fp_at_0_033 sampleInactive
  refine ⟨?_, h.2⟩
  rw [h.1]
  norm_num

/-- C3 (amended): `set_current(0.033)` activates the engine and derives
`resistance = 3.3 / 0.033`, which is exactly `100` in exact rational
arithmetic; under IEEE binary64 it is within `10^-12` of `100` but not
exactly equal (it is `100 - 2^-46`). -/
theorem set_current_0_033 (s : AnimState) :
    (set_current s (33/1000)).resistance = 100
    ∧ (set_current s (33/1000)).active = true
    ∧ (set_current_fp s (fl (33/1000))).active = true
    ∧ (set_current_fp s (fl (33/1000))).resistance ≠ 100
    ∧ |(set_current_fp s (fl (33/1000))).resistance - 100|
        < 1/1000000000000 := by
  have h := set_current_fp_at_0_033 s
  have hnn : ¬ ((33:ℚ)/1000 < 0) := by norm_num
  have hne : ¬ ((33:ℚ)/1000 < 1/100000) := by norm_num
  have hnh : ¬ ((33:ℚ)/1000 > 1/2) := by norm_num
  refine ⟨?_, ?_, h.2, ?_, ?_⟩
  · simp only [set_current, if_neg hnn, if_neg hne, if_neg hnh]
    norm_num [V_IN]
  · simp only [set_current, if_neg hnn, if_neg hne, if_neg hnh]
  · rw [h.1]; norm_num
  · rw [h.1]; rw [abs_sub_lt_iff]; norm_num

/-- C4: every `amps` below the `0.00001` epsilon (negative inputs are
first clamped to `0`, which is also below it) takes the sentinel path:
`active = False`, `resistance = 330000.0`, recomputed current
`voltage / resistance` exactly the epsilon `1/100000 ≈ 0` — and the
result does not depend on `amps` at all, so no division by `amps` can
occur. -/
theorem set_current_epsilon (s : AnimState) (a : ℚ) (ha : a < 1/100000) :
    (set_current s a).active = false
    ∧ (set_current s a).resistance = 330000
    ∧ (set_current s a).voltage / (set_current s a).resistance = 1/100000
    ∧ (∀ a2 : ℚ, a2 < 1/100000 → set_current s a2 = set_current s a) := by
  have key : ∀ a3 : ℚ, a3 < 1/100000 →
      set_current s a3 = { s with voltage := V_IN, resistance := 330000,
                                  active := false } := by
    intro a3 ha3
    have hlt : (if a3 < 0 then 0 else a3) < 1/100000 := by
      split_ifs with h
      · norm_num
      · exact ha3
    simp only [set_current, if_pos hlt]
  rw [key a ha]
  refine ⟨rfl, rfl, by norm_num [V_IN], ?_⟩
  intro a2 ha2
  rw [key a2 ha2]

/-- C4 witness: the sentinel path at the spec's example input
`set_current(0.000005)`. -/
theorem set_current_epsilon_witness :
    (set_current sampleInactive (1/200000)).active = false
    ∧ (set_current sampleInactive (1/200000)).resistance = 330000
    ∧ (set_current sampleInactive (1/200000)).voltage
        / (set_current sampleInactive (1/200000)).resistance = 1/100000 := by
  have h := set_current_epsilon sampleInactive (1/200000) (by norm_num)
  exact ⟨h.1, h.2.1, h.2.2.1⟩

/-- C5: with the stored ranges every ingestion path guarantees
(`resistance ≥ 0.1`, `voltage ∈ [0, 15]`), the current `update()`
computes is exactly `voltage / resistance`, and the derived
`heat_intensity = min(1, current * 0.35)` always lies in `[0, 1]`;
`set_params` indeed establishes those ranges for every input. -/
theorem update_heat_intensity_bounds (s t : AnimState) (v r : ℚ)
    (hr : 1/10 ≤ s.resistance) (hv0 : 0 ≤ s.voltage)
    (hv1 : s.voltage ≤ 15) :
    current_of s = s.voltage / s.resistance
    ∧ 0 ≤ heat_intensity_of s
    ∧ heat_intensity_of s ≤ 1
    ∧ 1/10 ≤ (set_params t v r).resistance
    ∧ 0 ≤ (set_params t v r).voltage
    ∧ (set_params t v r).voltage ≤ 15 := by
  have hrpos : (0:ℚ) < s.resistance := lt_of_lt_of_le (by norm_num) hr
  have hc : 0 ≤ current_of s := div_nonneg hv0 (le_of_lt hrpos)
  refine ⟨rfl, ?_, ?_, ?_, ?_, ?_⟩
  · exact le_min (by norm_num) (mul_nonneg hc (by norm_num))
  · exact min_le_left _ _
  · rw [set_params]
    split_ifs <;> dsimp only <;> linarith
  · rw [set_params]
    split_ifs <;> dsimp only <;> linarith
  · rw [set_params]
    split_ifs <;> dsimp only <;> linarith

/-- C5 witness: the bounds at a concrete in-range state
(`voltage = 3.3`, `resistance = 330`). -/
theorem update_heat_intensity_bounds_witness :
    0 ≤ heat_intensity_of sampleInactive
    ∧ heat_intensity_of sampleInactive ≤ 1 := by
  have h := update_heat_intensity_bounds sampleInactive sampleInactive 0 0
    (by norm_num [sampleInactive]) (by norm_num [sampleInactive])
    (by norm_num [sampleInactive])
  exact ⟨h.2.1, h.2.2.1⟩


/-- Folding a sequence of `idle_animation()` calls (one wall-clock
reading per call) from a state, threading the frame buffer through. -/
def idle_run : AnimState → Buffer → List ℚ → AnimState
  | s, _, [] => s
  | s, b, now :: rest =>
    let r := idle_animation s now b
    idle_run r.1 r.2.1 rest

/-- One `idle_animation()` call keeps the marker outside the resistor
span: a throttled call leaves it in place, and a due call either lands
outside or jumps to `RES_X2 + 1`. -/
theorem idle_step_outside (s : AnimState) (now : ℚ) (b : Buffer)
    (h : ¬ (RES_X1 ≤ s.idle_x ∧ s.idle_x ≤ RES_X2)) :
    ¬ (RES_X1 ≤ (idle_animation s now b).1.idle_x
        ∧ (idle_animation s now b).1.idle_x ≤ RES_X2) := by
  rw [idle_animation]
  split_ifs with h1
  · exact h
  · dsimp only
    split_ifs with h2
    · rw [RES_X1, RES_X2]
      omega
    · exact h2

/-- Every state reached by a sequence of `idle_animation()` calls from a
marker position outside the resistor span keeps it outside. -/
theorem idle_run_outside :
    ∀ (nows : List ℚ) (s : AnimState) (b : Buffer),
      ¬ (RES_X1 ≤ s.idle_x ∧ s.idle_x ≤ RES_X2) →
      ¬ (RES_X1 ≤ (idle_run s b nows).idle_x
          ∧ (idle_run s b nows).idle_x ≤ RES_X2) := by
  intro nows
  induction nows with
  | nil => intro s b h; exact h
  | cons now rest ih =>
    intro s b h
    rw [idle_run]
    exact ih _ _ (idle_step_outside s now b h)

/-- The construction leaves the idle marker at column zero. -/
theorem initState_idle_x (g : RNG) : (initState g).1.idle_x = 0 := rfl

/-- C9: after any sequence of `idle_animation()` calls from the initial
state the marker's x position never lies inside the resistor span
`[RES_X1, RES_X2]`; moreover, whenever an unthrottled call would advance
the marker into the span, it jumps to `RES_X2 + 1` instead. -/
theorem idle_marker_avoids_resistor (g : RNG) (nows : List ℚ)
    (b b2 : Buffer) (s : AnimState) (now : ℚ)
    (hth : ¬ (now - s.idle_last < 8/100))
    (hin1 : RES_X1 ≤ (s.idle_x + 1) % WIDTH)
    (hin2 : (s.idle_x + 1) % WIDTH ≤ RES_X2) :
    ¬ (RES_X1 ≤ (idle_run (initState g).1 b nows).idle_x
        ∧ (idle_run (initState g).1 b nows).idle_x ≤ RES_X2)
    ∧ (idle_animation s now b2).1.idle_x = RES_X2 + 1 := by
  constructor
  · apply idle_run_outside
    rw [initState_idle_x, RES_X1, RES_X2]
    omega
  · rw [idle_animation, if_neg hth]
    dsimp only
    rw [if_pos ⟨hin1, hin2⟩]

/-- C9 witness: from the initial state a first call stays clear of the
span, and a due call at column 19 (which would advance into column 20)
jumps to column 44. -/
theorem idle_marker_avoids_resistor_witness :
    ¬ (RES_X1 ≤ (idle_run (initState g0).1 bfill0 [1]).idle_x
        ∧ (idle_run (initState g0).1 bfill0 [1]).idle_x ≤ RES_X2)
    ∧ (idle_animation sampleIdle19 1 bfill0).1.idle_x = RES_X2 + 1 :=
  idle_marker_avoids_resistor g0 [1] bfill0 bfill0 sampleIdle19 1
    (by norm_num [sampleIdle19, sampleInactive]) (by decide) (by decide)


/-- Number of alive slots (`life ≥ 1`) in a heat-particle pool. -/
def countAlive (ps : List HeatParticle) : ℕ :=
  (ps.filter (fun p => 1 ≤ p.hplife)).length

/-- Spawning never changes the number of slots. -/
theorem spawn_length :
    ∀ (ps : List HeatParticle) (g : RNG),
      (spawn_heat_particle ps g).1.length = ps.length := by
  intro ps
  induction ps with
  | nil => intro g; rfl
  | cons p ps ih =>
    intro g
    rw [spawn_heat_particle]
    split_ifs with h
    · rfl
    · simp only [List.length_cons]
      rw [ih]

/-- With no dead slot, spawning is a complete no-op: the pool and the
random stream are returned untouched. -/
theorem spawn_noop :
    ∀ (ps : List HeatParticle) (g : RNG),
      (∀ p ∈ ps, p.hplife ≠ 0) → spawn_heat_particle ps g = (ps, g) := by
  intro ps
  induction ps with
  | nil => intro g _; rfl
  | cons p ps ih =>
    intro g hall
    rw [spawn_heat_particle]
    rw [if_neg (hall p (List.mem_cons_self p ps))]
    rw [ih g (fun q hq => hall q (List.mem_cons_of_mem p hq))]

/-- Spawning writes at most one slot, and only a slot whose life was
zero: any slot the spawn changed was dead beforehand. -/
theorem spawn_only_dead :
    ∀ (ps : List HeatParticle) (g : RNG) (i : ℕ)
      (h1 : i < ps.length) (h2 : i < (spawn_heat_particle ps g).1.length),
      (spawn_heat_particle ps g).1.get ⟨i, h2⟩ ≠ ps.get ⟨i, h1⟩ →
      (ps.get ⟨i, h1⟩).hplife = 0 := by
  intro ps
  induction ps with
  | nil => intro g i h1; exact absurd h1 (by simp)
  | cons p ps ih =>
    intro g i h1 h2 hne
    by_cases h : p.hplife = 0
    · match i with
      | 0 => exact h
      | j+1 =>
        exfalso
        apply hne
        obtain ⟨q, hsh⟩ : ∃ q, (spawn_heat_particle (p :: ps) g).1
            = q :: ps := by
          rw [spawn_heat_particle, if_pos h]
          exact ⟨_, rfl⟩
        rw [List.get_of_eq hsh]
        rfl
    · match i with
      | 0 =>
        exfalso
        apply hne
        have hsh : (spawn_heat_particle (p :: ps) g).1
            = p :: (spawn_heat_particle ps g).1 := by
          rw [spawn_heat_particle, if_neg h]
        rw [List.get_of_eq hsh]
        rfl
      | j+1 =>
        have hsh : (spawn_heat_particle (p :: ps) g).1
            = p :: (spawn_heat_particle ps g).1 := by
          rw [spawn_heat_particle, if_neg h]
        have hj2 : j < (spawn_heat_particle ps g).1.length := by
          have := h2
          rw [hsh] at this
          simpa using this
        apply ih g j (by simpa using h1) hj2
        intro heq
        apply hne
        rw [List.get_of_eq hsh]
        simpa using heq

/-- The advance/draw loop never changes the number of slots. -/
theorem update_heat_loop_length :
    ∀ (ps : List HeatParticle) (b : Buffer),
      (update_heat_loop ps b).1.length = ps.length := by
  intro ps
  induction ps with
  | nil => intro b; rfl
  | cons p ps ih =>
    intro b
    rw [update_heat_loop]
    simp only [List.length_cons]
    rw [ih]

/-- `_update_heat_particles` never changes the number of slots. -/
theorem update_heat_particles_length (current heat_intensity : ℚ) (ctr : ℤ)
    (ps : List HeatParticle) (g : RNG) (b : Buffer) :
    (update_heat_particles current heat_intensity ctr ps g b).2.1.length
      = ps.length := by
  rw [update_heat_particles]
  dsimp only
  split_ifs <;> dsimp only <;> rw [update_heat_loop_length] <;>
    try rw [spawn_length]

/-- Alive slots can never outnumber the slots. -/
theorem countAlive_le (ps : List HeatParticle) :
    countAlive ps ≤ ps.length := by
  rw [countAlive]
  exact List.length_filter_le _ ps

/-- C6: spawning writes only into a slot with `life == 0` and is a
silent, state-and-randomness-preserving no-op when no dead slot exists;
no operation ever changes the number of slots, which `__init__` fixes at
`MAX_HEAT_PARTICLES`; hence alive particles never exceed the capacity in
any reachable state. -/
theorem heat_pool_bounded (ps : List HeatParticle) (g g2 : RNG)
    (current heat_intensity : ℚ) (ctr : ℤ) (b : Buffer) (st : ℕ → ℤ)
    (s : AnimState) :
    (spawn_heat_particle ps g).1.length = ps.length
    ∧ ((∀ p ∈ ps, p.hplife ≠ 0) → spawn_heat_particle ps g = (ps, g))
    ∧ (∀ (i : ℕ) (h1 : i < ps.length)
        (h2 : i < (spawn_heat_particle ps g).1.length),
        (spawn_heat_particle ps g).1.get ⟨i, h2⟩ ≠ ps.get ⟨i, h1⟩ →
        (ps.get ⟨i, h1⟩).hplife = 0)
    ∧ (update_heat_particles current heat_intensity ctr ps g2 b).2.1.length
        = ps.length
    ∧ (update st s g2 b).1.particles.length = s.particles.length
    ∧ (initState g).1.particles.length = MAX_HEAT_PARTICLES
    ∧ (ps.length = MAX_HEAT_PARTICLES →
        countAlive ps ≤ MAX_HEAT_PARTICLES) := by
  refine ⟨spawn_length ps g, spawn_noop ps g, spawn_only_dead ps g,
    update_heat_particles_length current heat_intensity ctr ps g2 b,
    ?_, ?_, ?_⟩
  · rw [update]
    split_ifs with h
    · rfl
    · dsimp only
      rw [update_heat_particles_length]
  · rw [initState]
    dsimp only
    exact List.length_replicate _ _
  · intro hl
    rw [← hl]
    exact countAlive_le ps

/-- C6 witness: with every slot alive, a spawn request on a full pool of
`MAX_HEAT_PARTICLES` slots is dropped silently and the alive count still
does not exceed the capacity. -/
theorem heat_pool_bounded_witness :
    spawn_heat_particle (List.replicate MAX_HEAT_PARTICLES
        { hpx := 0, hpy := 0, hpvx := 0, hpvy := 0, hplife := 100 }) g0
      = (List.replicate MAX_HEAT_PARTICLES
          { hpx := 0, hpy := 0, hpvx := 0, hpvy := 0, hplife := 100 }, g0)
    ∧ countAlive (List.replicate MAX_HEAT_PARTICLES
        { hpx := 0, hpy := 0, hpvx := 0, hpvy := 0, hplife := 100 })
      ≤ MAX_HEAT_PARTICLES := by
  have h := heat_pool_bounded (List.replicate MAX_HEAT_PARTICLES
    { hpx := 0, hpy := 0, hpvx := 0, hpvy := 0, hplife := 100 }) g0 g0
    0 0 0 bfill0 (fun _ => 0) sampleInactive
  refine ⟨h.2.1 ?_, h.2.2.2.2.2.2 (by decide)⟩
  intro p hp
  rw [List.eq_of_mem_replicate hp]
  decide


/-- Iterating the per-electron loop body over a sequence of frames (one
current value, random stream and buffer per frame). -/
def electron_run (st : ℕ → ℤ) : Electron → List (ℚ × RNG × Buffer) → Electron
  | e, [] => e
  | e, i :: rest => electron_run st (update_electron st i.1 e i.2.1 i.2.2).1 rest

/-- A respawned electron starts with zero heat. -/
theorem reset_electron_heat (spread : Bool) (g : RNG) :
    (reset_electron spread g).1.eheat = 0 := rfl

/-- The heat step is the capped increment inside the span and the
floored decrement outside. -/
theorem electron_heat_step_minmax (ir : Bool) (h : ℤ) :
    electron_heat_step ir h
      = if ir then min 100 (h + 8) else max 0 (h - 6) := by
  rw [electron_heat_step]
  split_ifs <;> omega

/-- The heat step preserves the `[0, 100]` band. -/
theorem electron_heat_step_bounds (ir : Bool) (h : ℤ) (h0 : 0 ≤ h)
    (h1 : h ≤ 100) :
    0 ≤ electron_heat_step ir h ∧ electron_heat_step ir h ≤ 100 := by
  rw [electron_heat_step]
  split_ifs <;> omega

/-- After one loop iteration an electron's heat is either zero (it was
respawned past the right edge) or exactly the heat step of its previous
heat. -/
theorem update_electron_heat_cases (st : ℕ → ℤ) (current : ℚ)
    (e : Electron) (g : RNG) (b : Buffer) :
    (update_electron st current e g b).1.eheat = 0
    ∨ (update_electron st current e g b).1.eheat
        = electron_heat_step (electron_in_res e) e.eheat := by
  rw [update_electron]
  dsimp only
  by_cases h : electron_moved_x current e > (WIDTH + 8) * 100
  · rw [if_pos h]
    exact Or.inl (reset_electron_heat false g)
  · rw [if_neg h]
    exact Or.inr rfl

/-- One loop iteration keeps heat inside `[0, 100]`. -/
theorem update_electron_heat_bounds (st : ℕ → ℤ) (current : ℚ)
    (e : Electron) (g : RNG) (b : Buffer) (h0 : 0 ≤ e.eheat)
    (h1 : e.eheat ≤ 100) :
    0 ≤ (update_electron st current e g b).1.eheat
    ∧ (update_electron st current e g b).1.eheat ≤ 100 := by
  rcases update_electron_heat_cases st current e g b with h | h <;> rw [h]
  · omega
  · exact electron_heat_step_bounds (electron_in_res e) e.eheat h0 h1

/-- Any number of loop iterations keeps heat inside `[0, 100]`. -/
theorem electron_run_heat_bounds (st : ℕ → ℤ) :
    ∀ (inputs : List (ℚ × RNG × Buffer)) (e : Electron),
      0 ≤ e.eheat → e.eheat ≤ 100 →
      0 ≤ (electron_run st e inputs).eheat
      ∧ (electron_run st e inputs).eheat ≤ 100 := by
  intro inputs
  induction inputs with
  | nil => intro e h0 h1; exact ⟨h0, h1⟩
  | cons i rest ih =>
    intro e h0 h1
    rw [electron_run]
    have hb := update_electron_heat_bounds st i.1 e i.2.1 i.2.2 h0 h1
    exact ih _ hb.1 hb.2

/-- Every electron `__init__` constructs has zero heat. -/
theorem init_build_heat (spacing : ℤ) :
    ∀ (l : List ℤ) (acc : List Electron × RNG),
      (∀ e ∈ acc.1, e.eheat = 0) →
      ∀ e ∈ (l.foldl (init_electron_build spacing) acc).1, e.eheat = 0 := by
  intro l
  induction l with
  | nil => intro acc hacc; exact hacc
  | cons i rest ih =>
    intro acc hacc
    rw [List.foldl_cons]
    apply ih
    intro e he
    simp only [init_electron_build] at he
    rcases List.mem_append.mp he with h | h
    · exact hacc e h
    · rw [List.mem_singleton] at h
      rw [h]

/-- All electrons start with zero heat at construction. -/
theorem initState_electron_heat (g : RNG) :
    ∀ e ∈ (initState g).1.electrons, e.eheat = 0 := by
  intro e he
  simp only [initState] at he
  exact init_build_heat _ _ _ (by intro e2 he2; exact absurd he2 (by simp))
    e he

/-- C7: electron heat is `0` at construction and at every respawn; a
loop iteration that does not respawn updates it by exactly `+8` capped
at `100` inside the resistor span and `-6` floored at `0` outside; and
along every sequence of iterations from a respawn the heat stays in
`[0, 100]`. -/
theorem electron_heat_invariant (st : ℕ → ℤ) (current : ℚ) (e : Electron)
    (g g2 : RNG) (b : Buffer) (spread : Bool)
    (inputs : List (ℚ × RNG × Buffer))
    (h0 : 0 ≤ e.eheat) (h1 : e.eheat ≤ 100) :
    (reset_electron spread g2).1.eheat = 0
    ∧ (∀ e2 ∈ (initState g2).1.electrons, e2.eheat = 0)
    ∧ (electron_heat_step (electron_in_res e) e.eheat
        = if electron_in_res e then min 100 (e.eheat + 8)
          else max 0 (e.eheat - 6))
    ∧ (electron_moved_x current e ≤ (WIDTH + 8) * 100 →
        (update_electron st current e g b).1.eheat
          = electron_heat_step (electron_in_res e) e.eheat)
    ∧ (0 ≤ (update_electron st current e g b).1.eheat
        ∧ (update_electron st current e g b).1.eheat ≤ 100)
    ∧ (0 ≤ (electron_run st (reset_electron spread g2).1 inputs).eheat
        ∧ (electron_run st (reset_electron spread g2).1 inputs).eheat
            ≤ 100) := by
  refine ⟨reset_electron_heat spread g2, initState_electron_heat g2,
    electron_heat_step_minmax (electron_in_res e) e.eheat, ?_,
    update_electron_heat_bounds st current e g b h0 h1,
    electron_run_heat_bounds st inputs (reset_electron spread g2).1
      (by rw [reset_electron_heat]) (by rw [reset_electron_heat]; norm_num)⟩
  intro hnr
  rw [update_electron]
  dsimp only
  rw [if_neg (not_lt.mpr hnr)]

/-- C7 witness: the invariant instantiated at a fresh electron over one
concrete frame. -/
theorem electron_heat_invariant_witness :
    (reset_electron false g0).1.eheat = 0
    ∧ (0 ≤ (electron_run (fun _ => 0) (reset_electron false g0).1
          [(1/100, g0, bfill0)]).eheat
        ∧ (electron_run (fun _ => 0) (reset_electron false g0).1
            [(1/100, g0, bfill0)]).eheat ≤ 100) := by
  have h := electron_heat_invariant (fun _ => 0) (1/100)
    { ex := 0, ey := 1300, ebase_y := 1300, ephase := 0, eheat := 0 }
    g0 g0 bfill0 false [(1/100, g0, bfill0)] (by decide) (by decide)
  exact ⟨h.1, h.2.2.2.2.2⟩

end CurrentAnim
